import Mathlib

/-!
Verification of the rastreio-xml repository's core normalization pipeline.

Shallow embedding of:
  * `src/utils/xmlParser.ts`   (access-key extraction + shipment hints), and
  * `src/services/trackingService.ts` (SSW response normalization + date helper).

DOM queries, JSON decoding and the host JavaScript runtime are modelled at the
level of their observable results:
  * an XML document is represented by the results of the fixed `querySelector`
    calls the source performs (element presence as `Option`, raw `textContent`
    as `String`);
  * the JSON payload is represented by a structure with `Option` fields for the
    properties the source reads (absent property = `none`);
  * implementation-defined runtime services (`new Date(string)` on non-ISO
    input, `toLocaleDateString`) are abstracted into a `JsRuntime` parameter;
  * spec-mandated runtime behaviour (`Date.UTC`, `toISOString`, `parseInt`,
    `parseFloat`, `trim`, regexes) is implemented directly, on exact integers /
    rationals rather than IEEE doubles (all claim-relevant values are exact).
-/

namespace RastreioXml

/-! ### JavaScript primitive models -/

/-- Model of JavaScript string truthiness applied to an optional string
(`undefined` and `""` are falsy). -/
def truthyOptStr : Option String → Bool
  | some s => s ≠ ""
  | none => false

/-- Model of `x || d` for an optional string `x` and default `d`. -/
def orTruthy (x : Option String) (d : String) : String :=
  match x with
  | some s => if s ≠ "" then s else d
  | none => d

/-- Characters removed by JavaScript `trim` (the model covers the ASCII
whitespace the inputs use). -/
def jsSpace (c : Char) : Bool :=
  c = ' ' ∨ c = '\t' ∨ c = '\n' ∨ c = '\r'

/-- Model of `String.prototype.trim`. -/
def jsTrim (s : String) : String :=
  String.mk (((s.toList.dropWhile jsSpace).reverse.dropWhile jsSpace).reverse)

/-- Model of `String.prototype.toUpperCase` (ASCII case mapping; every
needle the source compares against is ASCII). -/
def jsToUpperStr (s : String) : String :=
  String.mk (s.toList.map Char.toUpper)

/-- Model of `str.split(sep)` for a one-character separator (JavaScript
semantics: `"" → [""]`, separators at the ends produce empty pieces). -/
def splitOnChar (sep : Char) : List Char → List (List Char)
  | [] => [[]]
  | c :: cs =>
    match splitOnChar sep cs with
    | [] => [[c]]
    | h :: t => if c = sep then [] :: h :: t else (c :: h) :: t

/-- Model of `x?.textContent?.trim() || undefined`: a missing node or an
all-whitespace text collapses to `none`. -/
def textOrNone : Option String → Option String
  | none => none
  | some s => if jsTrim s = "" then none else some (jsTrim s)

/-- Numeric value of a list of ASCII digits. -/
def natOfDigits (ds : List Char) : Nat :=
  ds.foldl (fun a c => a * 10 + (c.toNat - 48)) 0

/-- Model of `parseInt(s, 10)`: skip leading whitespace, optional sign, then
the longest ASCII digit run; `none` models `NaN`.  (The model computes the
exact integer; the engine's `Number` rounds above `2^53`, a range no claim
exercises.) -/
def jsParseInt (s : String) : Option Int :=
  let cs := s.toList.dropWhile jsSpace
  let (sign, cs') : Int × List Char :=
    match cs with
    | '-' :: r => (-1, r)
    | '+' :: r => (1, r)
    | r => (1, r)
  let ds := cs'.takeWhile (·.isDigit)
  if ds.isEmpty then none else some (sign * (natOfDigits ds : Int))

/-- Model of `parseFloat(s)`: skip whitespace, optional sign, decimal digits
with an optional fraction; `none` models `NaN`.  Exponents and `Infinity`
are not modelled (no claim exercises them); the value is the exact rational. -/
def jsParseFloat (s : String) : Option Rat :=
  let cs := s.toList.dropWhile jsSpace
  let (sign, cs') : Int × List Char :=
    match cs with
    | '-' :: r => (-1, r)
    | '+' :: r => (1, r)
    | r => (1, r)
  let ip := cs'.takeWhile (·.isDigit)
  let rest := cs'.dropWhile (·.isDigit)
  let fp := match rest with
    | '.' :: r => r.takeWhile (·.isDigit)
    | _ => []
  if ip.isEmpty ∧ fp.isEmpty then none
  else some (mkRat (sign * (natOfDigits (ip ++ fp) : Int)) (10 ^ fp.length))

/-- Days since 1970-01-01 of the proleptic Gregorian date `(y, m, d)` with
`1 ≤ m ≤ 12` (the standard civil-from-days algorithm used by ECMAScript's
`MakeDay`). -/
def daysFromCivil (y m d : Int) : Int :=
  let y' := if m ≤ 2 then y - 1 else y
  let era := y'.fdiv 400
  let yoe := y' - era * 400
  let mp := if m > 2 then m - 3 else m + 9
  let doy := (153 * mp + 2).fdiv 5 + d - 1
  let doe := yoe * 365 + yoe.fdiv 4 - yoe.fdiv 100 + doy
  era * 146097 + doe - 719468

/-- Civil date `(y, m, d)` of a count of days since 1970-01-01 (inverse of
`daysFromCivil`). -/
def civilFromDays (z : Int) : Int × Int × Int :=
  let z' := z + 719468
  let era := z'.fdiv 146097
  let doe := z' - era * 146097
  let yoe := (doe - doe.fdiv 1460 + doe.fdiv 36524 - doe.fdiv 146096).fdiv 365
  let y := yoe + era * 400
  let doy := doe - (365 * yoe + yoe.fdiv 4 - yoe.fdiv 100)
  let mp := (5 * doy + 2).fdiv 153
  let d := doy - (153 * mp + 2).fdiv 5 + 1
  let m := if mp < 10 then mp + 3 else mp - 9
  (if m ≤ 2 then y + 1 else y, m, d)

/-- Model of `Date.UTC(year, month, day)` (month 0-based, with ECMAScript's
two-digit-year mapping, month/day rollover and `TimeClip`): the UTC
millisecond time value, or `none` for `NaN` (time value out of the
±8.64e15 ms range). -/
def jsDateUTC (year month day : Int) : Option Int :=
  let yr := if 0 ≤ year ∧ year ≤ 99 then year + 1900 else year
  let ym := yr + month.fdiv 12
  let mn := month.emod 12
  let days := daysFromCivil ym (mn + 1) 1 + (day - 1)
  let t := days * 86400000
  if t.natAbs ≤ 8640000000000000 then some t else none

/-- Left-pad the decimal rendering of `n` with zeros to width `w`. -/
def padNum (w : Nat) (n : Nat) : String :=
  let s := toString n
  if s.length < w then String.mk (List.replicate (w - s.length) '0') ++ s else s

/-- Model of `Date.prototype.toISOString` on a (valid) time value `t` in
milliseconds: `YYYY-MM-DDTHH:MM:SS.sssZ`, with ECMAScript's expanded
`±YYYYYY` form outside years 0–9999. -/
def jsToISO (t : Int) : String :=
  let days := t.fdiv 86400000
  let ms := t.emod 86400000
  let (y, m, d) := civilFromDays days
  let yearStr :=
    if 0 ≤ y ∧ y ≤ 9999 then padNum 4 y.toNat
    else if y > 9999 then "+" ++ padNum 6 y.toNat
    else "-" ++ padNum 6 (-y).toNat
  yearStr ++ "-" ++ padNum 2 m.toNat ++ "-" ++ padNum 2 d.toNat ++ "T" ++
    padNum 2 (ms.fdiv 3600000).toNat ++ ":" ++
    padNum 2 ((ms.fdiv 60000).emod 60).toNat ++ ":" ++
    padNum 2 ((ms.fdiv 1000).emod 60).toNat ++ "." ++
    padNum 3 (ms.emod 1000).toNat ++ "Z"

/-- Model of `hay.includes(needle)` / a case-sensitive substring test. -/
def containsSub (hay needle : String) : Bool :=
  hay.toList.tails.any (fun t => needle.toList.isPrefixOf t)

/-! ### Model of `src/utils/xmlParser.ts` -/

/-- Validity predicate for an access key: the source's
`accessKey.length === 44 && /^\d+$/.test(accessKey)` (a 44-character string
of ASCII digits; on such strings the UTF-16 length used by JavaScript and
the character count coincide). -/
def isValidKey (s : String) : Bool :=
  (s.toList.length == 44) && s.toList.all (·.isDigit)

/-- Model of `idAttr.toUpperCase().startsWith("NFE")`: the needle is ASCII,
so only the ASCII case mapping is relevant. -/
def upperStartsNFE (s : String) : Bool :=
  (s.toList.map Char.toUpper).take 3 == ['N', 'F', 'E']

/-- Model of `s.substring(n)` (the candidate strings of interest are ASCII,
where UTF-16 indexing and character indexing coincide). -/
def substringFrom (n : Nat) (s : String) : String :=
  String.mk (s.toList.drop n)

/-- Installment record (`XmlInstallmentInfo` in `src/types`, values as exact
rationals). -/
structure XmlInstallmentInfo where
  number : Option String
  dueDate : Option String
  value : Option Rat
deriving Repr, DecidableEq

/-- Volume record (`XmlVolumeInfo`). -/
structure XmlVolumeInfo where
  quantity : Option Rat
  species : Option String
  netWeight : Option Rat
  grossWeight : Option Rat
deriving Repr, DecidableEq

/-- Invoice record (`XmlInvoiceInfo`). -/
structure XmlInvoiceInfo where
  number : Option String
  originalValue : Option Rat
  discountValue : Option Rat
  netValue : Option Rat
deriving Repr, DecidableEq

/-- Raw text contents of one `cobr > dup` element's children (node absent =
`none`, otherwise the raw `textContent`). -/
structure DupModel where
  nDup : Option String
  dVenc : Option String
  vDup : Option String
deriving Repr, DecidableEq

/-- Raw text contents of the `transp > vol` element's children. -/
structure VolModel where
  qVol : Option String
  esp : Option String
  pesoL : Option String
  pesoB : Option String
deriving Repr, DecidableEq

/-- Raw text contents of the `cobr > fat` element's children. -/
structure FatModel where
  nFat : Option String
  vOrig : Option String
  vDesc : Option String
  vLiq : Option String
deriving Repr, DecidableEq

/-- The located `infNFe` element, as the results of the queries the source
performs on it: the `Id` attribute, the raw `textContent` of the first
`chNFe` descendant (the `querySelector("chNFe")` result), and the hint
subtrees. -/
structure InfNFeModel where
  idAttr : Option String
  chNFeText : Option String
  transpXNome : Option String
  vol : Option VolModel
  fat : Option FatModel
  dups : List DupModel
deriving Repr, DecidableEq

/-- An XML document, as the results of the document-level queries:
`parsererror` presence, the two `infProt` selector results (element present =
`some`, carrying the raw `textContent` of its `chNFe` child or `none`), and
the located `infNFe` element (first of the three root selectors to match). -/
structure XmlDoc where
  parserError : Bool
  infProtChProc : Option (Option String)
  infProtChBare : Option (Option String)
  infNFe : Option InfNFeModel
deriving Repr, DecidableEq

/-- Extraction result (`ParsedXmlData`). -/
structure ParsedXmlData where
  accessKey : String
  carrierName : Option String
  volumeInfo : Option XmlVolumeInfo
  invoiceInfo : Option XmlInvoiceInfo
  installments : Option (List XmlInstallmentInfo)
deriving Repr, DecidableEq

/-- Error taxonomy of the extraction (each constructor corresponds to one
`reject(new Error(...))` site; `invalidKey` carries the found value, which the
source embeds — truncated to 20 characters — in its message). -/
inductive XmlError where
  | malformedXml
  | missingRoot
  | invalidKey (found : String)
  | keyNotFound
deriving Repr, DecidableEq

/-- Decidable equality for `Except` results (for concrete evaluation). -/
def exceptDecEq {ε α : Type} [DecidableEq ε] [DecidableEq α] :
    DecidableEq (Except ε α)
  | .error e, .error f =>
    if h : e = f then .isTrue (by rw [h])
    else .isFalse (by intro hh; cases hh; exact h rfl)
  | .error _, .ok _ => .isFalse (by intro hh; cases hh)
  | .ok _, .error _ => .isFalse (by intro hh; cases hh)
  | .ok a, .ok b =>
    if h : a = b then .isTrue (by rw [h])
    else .isFalse (by intro hh; cases hh; exact h rfl)

instance {ε α : Type} [DecidableEq ε] [DecidableEq α] : DecidableEq (Except ε α) :=
  exceptDecEq

/-- One iteration of the `protNFe` selector loop: if the `infProt` element was
found, take its `chNFe` child's trimmed text and keep it only if it is a valid
key (the source resets `accessKey` to `null` otherwise). -/
def protCandidate (q : Option (Option String)) : Option String :=
  match q with
  | none => none
  | some t =>
    match textOrNone t with
    | some s => if isValidKey s then some s else none
    | none => none

/-- Model of `getNumericContent`: `textContent` of the selected node, truthy
check, then `parseFloat` with `NaN` mapped to `undefined`. -/
def getNumericContent (t : Option String) : Option Rat :=
  match t with
  | some s => if s ≠ "" then jsParseFloat s else none
  | none => none

/-- Model of `getTextContent`: trimmed `textContent` or `undefined`. -/
def getTextContent (t : Option String) : Option String :=
  textOrNone t

/-- Per-`dup` mapping of the installment extraction. -/
def mapDup (d : DupModel) : XmlInstallmentInfo :=
  { number := getTextContent d.nDup
    dueDate := getTextContent d.dVenc
    value := getNumericContent d.vDup }

/-- Truthiness of an optional numeric value (`0` and `undefined` are falsy;
`NaN` is already `none` by construction of `getNumericContent`). -/
def truthyOptNum : Option Rat → Bool
  | some v => v ≠ 0
  | none => false

/-- The source's filter `dup => dup.number || dup.dueDate || dup.value`. -/
def keepDup (i : XmlInstallmentInfo) : Bool :=
  truthyOptStr i.number || truthyOptStr i.dueDate || truthyOptNum i.value

/-- Installment extraction: map the `cobr > dup` elements, drop entries whose
three fields are all falsy, and represent an empty result as `undefined`. -/
def processInstallments (dups : List DupModel) : Option (List XmlInstallmentInfo) :=
  match dups with
  | [] => none
  | _ =>
    let l := (dups.map mapDup).filter keepDup
    if l.isEmpty then none else some l

/-- The `Id`-attribute branch of the fallback (lines 77–84 of the source):
the value assigned to `accessKey` from the attribute, before the final
re-validation. -/
def idCandidateOf : Option String → Option String
  | some s =>
    if s ≠ "" then
      if upperStartsNFE s && (s.toList.length == 47) then some (substringFrom 3 s)
      else if isValidKey s then some s
      else none
    else none
  | none => none

/-- The value of `accessKey` after the `Id`-attribute / `chNFe`-child
fallback block (lines 76–88): an invalid or missing `Id`-derived value is
overwritten by the trimmed `chNFe` descendant text. -/
def afterIdKey (idAttr chText : Option String) : Option String :=
  match idCandidateOf idAttr with
  | some k => if isValidKey k then some k else textOrNone chText
  | none => textOrNone chText

/-- The value of `accessKey` reaching the final validation (line 91): the
protocol-loop result when it found a valid key, else the fallback block's
value. -/
def finalKeyOf (p1 p2 : Option (Option String)) (idAttr chText : Option String) :
    Option String :=
  match (match protCandidate p1 with
         | some k => some k
         | none => protCandidate p2) with
  | some k => some k
  | none => afterIdKey idAttr chText

/-- The access-key fallback chain of `parseXmlAndExtractAccessKey`, over the
two `infProt` query results, the `infNFe` `Id` attribute and the raw text of
the `chNFe` descendant of `infNFe`, ending in the final validation of
lines 91–98. -/
def resolveKey (p1 p2 : Option (Option String)) (idAttr chText : Option String) :
    Except XmlError String :=
  match finalKeyOf p1 p2 idAttr chText with
  | some k => if isValidKey k then .ok k else .error (.invalidKey k)
  | none => .error .keyNotFound

/-- Model of `parseXmlAndExtractAccessKey` from the parsed document onward
(file reading and `DOMParser` are the host's; `parserError` models the
`parsererror` query). -/
def parseXmlAndExtractAccessKey (doc : XmlDoc) : Except XmlError ParsedXmlData :=
  if doc.parserError then .error .malformedXml
  else
    match doc.infNFe with
    | none => .error .missingRoot
    | some inf =>
      match resolveKey doc.infProtChProc doc.infProtChBare inf.idAttr inf.chNFeText with
      | .error e => .error e
      | .ok key =>
        .ok
          { accessKey := key
            carrierName := getTextContent inf.transpXNome
            volumeInfo := inf.vol.map (fun v =>
              { quantity := getNumericContent v.qVol
                species := getTextContent v.esp
                netWeight := getNumericContent v.pesoL
                grossWeight := getNumericContent v.pesoB })
            invoiceInfo := inf.fat.map (fun f =>
              { number := getTextContent f.nFat
                originalValue := getNumericContent f.vOrig
                discountValue := getNumericContent f.vDesc
                netValue := getNumericContent f.vLiq })
            installments := processInstallments inf.dups }

/-- The value the claims' second candidate location holds: the `Id`
attribute of `infNFe` with the `NFE` marker dropped when it leads the
attribute text. -/
def idCandList : Option String → List String
  | some s =>
    if s ≠ "" then
      if upperStartsNFE s then [substringFrom 3 s] else [s]
    else []
  | none => []

/-- The candidate values of the claims' ordered fallback chain: trimmed
protocol `chNFe` texts (both selectors, in selector order), the `Id`
attribute with the `NFE` marker stripped, and the trimmed `chNFe`
descendant text of `infNFe`. -/
def candListOf (p1 p2 : Option (Option String)) (idAttr chText : Option String) :
    List String :=
  (textOrNone (p1.getD none)).toList ++
  (textOrNone (p2.getD none)).toList ++
  idCandList idAttr ++
  (textOrNone chText).toList

/-- The candidate chain of a document with a located `infNFe` root. -/
def candidateList (d : XmlDoc) (inf : InfNFeModel) : List String :=
  candListOf d.infProtChProc d.infProtChBare inf.idAttr inf.chNFeText

/-! ### Model of `src/services/trackingService.ts` -/

/-- The date-token stage of `parseSswDateForDelivery`: the `'/'`-split of the
first `' '`-separated token of the trimmed input. -/
def sswDateTokens (s : String) : List String :=
  (splitOnChar '/' ((splitOnChar ' ' (jsTrim s).toList).headD [])).map String.mk

/-- The validated `(year, month, day)` components reaching the
`Date.UTC` call of `parseSswDateForDelivery` (month already 0-based, the
two-digit year already mapped to the 2000s, the year already range-checked);
`none` when one of the early `return null` branches fires. -/
def sswComponents (dateString : Option String) : Option (Int × Int × Int) :=
  match dateString with
  | none => none
  | some s =>
    if jsTrim s = "" then none
    else
      let dp := sswDateTokens s
      if dp.length ≠ 3 then none
      else
        match jsParseInt (dp.headD ""), jsParseInt (dp[1]?.getD ""),
              jsParseInt (dp[2]?.getD "") with
        | some day, some month0, some year0 =>
          let yearStr := dp[2]?.getD ""
          let year := if yearStr.length = 2 then year0 + 2000 else year0
          if year < 2000 ∨ year > 2100 then none
          else some (year, month0 - 1, day)
        | _, _, _ => none

/-- The UTC time value produced by `parseSswDateForDelivery` before ISO
rendering (`none` covers both the validation `return null`s and the `catch`
around `toISOString`, which throws exactly when `Date.UTC` clipped to
`NaN`). -/
def parseSswMillis (dateString : Option String) : Option Int :=
  match sswComponents dateString with
  | none => none
  | some (y, m, d) => jsDateUTC y m d

/-- Model of `parseSswDateForDelivery`: ISO string or `null`. -/
def parseSswDateForDelivery (dateString : Option String) : Option String :=
  (parseSswMillis dateString).map jsToISO

/-- Abstraction of the implementation-defined pieces of the host runtime:
`dateParse` is `new Date(string)` on arbitrary strings (`none` = Invalid
Date), `localeFormat` is `new Date(t).toLocaleDateString('pt-BR', {day:
'2-digit', month: '2-digit', year: 'numeric'})` on a time value `t`. -/
structure JsRuntime where
  dateParse : String → Option Int
  localeFormat : Int → String

/-- Canonical tracking event (`TrackingEvent` in `src/types`). -/
structure TrackingEvent where
  timestamp : String
  status : String
  location : String
  details : Option String
deriving Repr, DecidableEq

/-- Canonical tracking record (`TrackingInfo` in `src/types`). -/
structure TrackingInfo where
  id : String
  carrier : String
  estimatedDelivery : String
  currentStatus : String
  events : List TrackingEvent
  origin : String
  destination : String
  productName : Option String
  weight : Option String
deriving Repr, DecidableEq

/-- One raw SSW event, as the properties the source reads (absent = `none`;
the typed model assumes present fields are strings, the shape the provider
documents). -/
structure SswEvent where
  data_hora : Option String
  ocorrencia : Option String
  cidade : Option String
  descricao : Option String
  codigo_ssw : Option String
deriving Repr, DecidableEq

/-- The `documento.header` object. -/
structure SswHeader where
  remetente : Option String
  destinatario : Option String
  nro_nf : Option String
deriving Repr, DecidableEq

/-- The `documento` object (`tracking = none` covers both an absent field and
a non-array value, which the source treats identically). -/
structure SswDocumento where
  header : Option SswHeader
  tracking : Option (List SswEvent)
deriving Repr, DecidableEq

/-- The decoded provider response (`success` is the truthiness of the
top-level flag). -/
structure SswResponse where
  success : Bool
  message : Option String
  documento : Option SswDocumento
deriving Repr, DecidableEq

/-- The time value backing one mapped event's timestamp: the native parse of
a (truthy, string) `data_hora`, with the epoch used for a missing `data_hora`
or a failed parse. -/
def eventMillis (R : JsRuntime) (e : SswEvent) : Int :=
  match e.data_hora with
  | some s =>
    if s ≠ "" then
      match R.dateParse s with
      | some t => t
      | none => 0
    else 0
  | none => 0

/-- The event mapping of `fetchTrackingData`, keeping the event's time value
alongside the constructed record.  The source sorts the constructed records
with the comparator `new Date(b.timestamp).getTime() - new
Date(a.timestamp).getTime()`; since every `timestamp` is a `toISOString`
output and ECMAScript mandates that `new Date` recover the exact time value
from ISO strings, that comparator compares exactly these time values, which
the model therefore carries explicitly. -/
def keyedEvent (R : JsRuntime) (e : SswEvent) : Int × TrackingEvent :=
  let t := eventMillis R e
  (t,
    { timestamp := jsToISO t
      status := orTruthy e.ocorrencia "Status Desconhecido"
      location := orTruthy e.cidade "Local Desconhecido"
      details := match e.descricao with
        | some s => if s ≠ "" then some s else none
        | none => none })

/-- Stable insertion of `x` into a list sorted descending by `f`: `x` goes
after every strictly greater element and before the first element whose key
is not greater (so before earlier-inserted equal keys — but `sortDescBy`
inserts in reverse processing order, restoring input order on ties). -/
def insDescBy (f : α → Int) (x : α) : List α → List α
  | [] => [x]
  | y :: ys => if f y > f x then y :: insDescBy f x ys else x :: y :: ys

/-- The unique stable descending sort by `f`, which is the result mandated by
ECMAScript for `Array.prototype.sort` under the consistent comparator
`(a, b) => f b - f a`. -/
def sortDescBy (f : α → Int) : List α → List α
  | [] => []
  | x :: xs => insDescBy f x (sortDescBy f xs)

/-- The issuance-event search:
`sswEventsData.find(e => e.codigo_ssw === "80" ||
e.ocorrencia?.toUpperCase().includes("DOCUMENTO DE TRANSPORTE EMITIDO"))`. -/
def findInitialEvent (evs : List SswEvent) : Option SswEvent :=
  evs.find? (fun e =>
    (e.codigo_ssw == some "80") ||
    (match e.ocorrencia with
     | some s => containsSub (jsToUpperStr s) "DOCUMENTO DE TRANSPORTE EMITIDO"
     | none => false))

/-- Case-insensitive literal match at the head of `cs`; returns the rest. -/
def matchLitCI : List Char → List Char → Option (List Char)
  | [], cs => some cs
  | _, [] => none
  | n :: ns, c :: cs => if n.toLower = c.toLower then matchLitCI ns cs else none

/-- `n` ASCII digits at the head of `cs`; returns them and the rest. -/
def takeDigits (n : Nat) (cs : List Char) : Option (List Char × List Char) :=
  let t := cs.take n
  if t.length = n ∧ t.all (·.isDigit) then some (t, cs.drop n) else none

/-- The date part `\d{1,2}\/\d{1,2}\/\d{2,4}` of the delivery regex at the
head of `cs`, with the regex's greedy-then-backtrack alternative order. -/
def tryDatePart (cs : List Char) : Option String :=
  ([2, 1].map (fun n1 =>
    (takeDigits n1 cs).bind (fun p1 =>
      match p1.2 with
      | '/' :: r2 =>
        ([2, 1].map (fun n2 =>
          (takeDigits n2 r2).bind (fun p2 =>
            match p2.2 with
            | '/' :: r4 =>
              ([4, 3, 2].map (fun n3 =>
                (takeDigits n3 r4).map (fun p3 =>
                  String.mk (p1.1 ++ '/' :: p2.1 ++ '/' :: p3.1)))).findSome? id
            | _ => none))).findSome? id
      | _ => none))).findSome? id

/-- One attempt of `/Previsao de entrega: (\d{1,2}\/\d{1,2}\/\d{2,4})/i` at
the head of `cs`; yields the capture group. -/
def tryDeliveryAt (cs : List Char) : Option String :=
  match matchLitCI "Previsao de entrega: ".toList cs with
  | none => none
  | some rest => tryDatePart rest

/-- Left-to-right scan of `tryDeliveryAt` (the regex engine's first-match
search). -/
def deliveryScan : List Char → Option String
  | [] => none
  | c :: cs =>
    match tryDeliveryAt (c :: cs) with
    | some r => some r
    | none => deliveryScan cs

/-- Capture of `desc.match(/Previsao de entrega: (\d{1,2}\/\d{1,2}\/\d{2,4})/i)`. -/
def deliveryCapture (s : String) : Option String :=
  deliveryScan s.toList

/-- One attempt of `/(\d+(\.\d+)?)\s*Kg/i` at the head of `cs`, yielding the
first capture group.  Backtracking is equivalent to maximal munch here: any
shorter choice for `\d+`, the optional fraction or `\s*` leaves a digit,
a dot or whitespace where the next mandatory atom (`.`/`\s`-incompatible
`K`) must match, so only the greedy reading can succeed. -/
def tryWeightAt (cs : List Char) : Option String :=
  let ds := cs.takeWhile (·.isDigit)
  let r1 := cs.dropWhile (·.isDigit)
  if ds.isEmpty then none
  else
    let (capt, r2) : List Char × List Char :=
      match r1 with
      | '.' :: r =>
        let fs := r.takeWhile (·.isDigit)
        if fs.isEmpty then (ds, r1) else (ds ++ '.' :: fs, r.dropWhile (·.isDigit))
      | _ => (ds, r1)
    match matchLitCI "kg".toList (r2.dropWhile jsSpace) with
    | some _ => some (String.mk capt)
    | none => none

/-- Left-to-right scan of `tryWeightAt`. -/
def weightScan : List Char → Option String
  | [] => none
  | c :: cs =>
    match tryWeightAt (c :: cs) with
    | some r => some r
    | none => weightScan cs

/-- Capture of `desc.match(/(\d+(\.\d+)?)\s*Kg/i)`. -/
def weightCapture (s : String) : Option String :=
  weightScan s.toList

/-- Model of `parseFloat(capture).toFixed(2)` on a capture of
`\d+(\.\d+)?` (exact decimal rounding, half away from zero — `toFixed`'s
"pick the larger n" rule on the exact value; the claims never exercise the
double-representation tie cases). -/
def toFixed2 (s : String) : String :=
  let ip := s.toList.takeWhile (·.isDigit)
  let rest := s.toList.dropWhile (·.isDigit)
  let fp := match rest with
    | '.' :: r => r
    | _ => []
  let fp2 := (fp ++ ['0', '0']).take 2
  let roundUp : Bool := match fp.drop 2 with
    | c :: _ => decide (c ≥ '5')
    | [] => false
  let v := natOfDigits (ip ++ fp2) + (if roundUp then 1 else 0)
  toString (v / 100) ++ "." ++ padNum 2 (v % 100)

/-- The default message of the success-flag failure (line 76 of the
source). -/
def sswNotFoundMsg : String :=
  "Chave de rastreamento não encontrada ou inválida no SSW."

/-- The degraded record returned when `success` is true but `documento` is
absent (lines 84–94 of the source). -/
def noDocumentoRecord (accessKey : String) (carrierNameFromXml : Option String) :
    TrackingInfo :=
  { id := accessKey
    carrier := orTruthy carrierNameFromXml "SSW Transportes"
    estimatedDelivery := "Não disponível"
    currentStatus := "Nenhuma informação de rastreamento disponível. (Sem \x27documento\x27)"
    events := []
    origin := "Não informado"
    destination := "Não informado"
    productName := some ("DANFE: " ++ accessKey)
    weight := none }

/-- The `doc.header || {}` object. -/
def headerOf (doc : SswDocumento) : SswHeader :=
  doc.header.getD { remetente := none, destinatario := none, nro_nf := none }

/-- The `productName` derivation shared by the degraded and the main path. -/
def productNameOf (hdr : SswHeader) (accessKey : String) : String :=
  if truthyOptStr hdr.nro_nf then "Nota Fiscal: " ++ hdr.nro_nf.getD ""
  else "DANFE: " ++ accessKey

/-- The degraded record returned when the `tracking` field is absent, not an
array, or empty (lines 106–116 of the source). -/
def noEventsRecord (accessKey : String) (carrierNameFromXml : Option String)
    (doc : SswDocumento) : TrackingInfo :=
  let hdr := headerOf doc
  { id := accessKey
    carrier := orTruthy carrierNameFromXml "SSW Transportes"
    estimatedDelivery := "Não disponível"
    currentStatus := "Nenhum evento de rastreamento encontrado."
    events := []
    origin := orTruthy hdr.remetente "Origem não informada"
    destination := orTruthy hdr.destinatario "Destino não informado"
    productName := some (productNameOf hdr accessKey)
    weight := none }

/-- The delivery-estimate / weight extraction from the issuance event's
description (lines 148–171): `estimatedDelivery` display text and `weight`. -/
def deliveryAndWeight (R : JsRuntime) (evs : List SswEvent) :
    String × Option String :=
  match findInitialEvent evs with
  | some ev =>
    (match ev.descricao with
     | some desc =>
       if desc ≠ "" then
         let est := match deliveryCapture desc with
           | some ds =>
             match parseSswMillis (some ds) with
             | some t => R.localeFormat t
             | none => "Não disponível"
           | none => "Não disponível"
         let w := (weightCapture desc).map (fun c => toFixed2 c ++ " kg")
         (est, w)
       else ("Não disponível", none)
     | none => ("Não disponível", none))
  | none => ("Não disponível", none)

/-- The main-path record construction of `fetchTrackingData` for a nonempty
event list (lines 119–187). -/
def mainRecord (R : JsRuntime) (accessKey : String)
    (carrierNameFromXml : Option String) (doc : SswDocumento)
    (evs : List SswEvent) : TrackingInfo :=
  let keyed := evs.map (keyedEvent R)
  let sorted := sortDescBy Prod.fst keyed
  let events := sorted.map Prod.snd
  let hdr := headerOf doc
  let dw := deliveryAndWeight R evs
  { id := accessKey
    carrier := orTruthy carrierNameFromXml "SSW Transportes"
    estimatedDelivery := dw.1
    currentStatus := match events with
      | e :: _ => e.status
      | [] => "Informação de status indisponível"
    events := events
    origin := orTruthy hdr.remetente "Origem não informada"
    destination := orTruthy hdr.destinatario "Destino não informado"
    productName := some (productNameOf hdr accessKey)
    weight := dw.2 }

/-- The body of `fetchTrackingData`'s `try` block from the decoded JSON
onward; an `error` is a thrown `Error`'s message. -/
def fetchTrackingBody (R : JsRuntime) (accessKey : String)
    (carrierNameFromXml : Option String) (resp : SswResponse) :
    Except String TrackingInfo :=
  if ¬ resp.success then
    .error (orTruthy resp.message sswNotFoundMsg)
  else
    match resp.documento with
    | none => .ok (noDocumentoRecord accessKey carrierNameFromXml)
    | some doc =>
      match doc.tracking with
      | none => .ok (noEventsRecord accessKey carrierNameFromXml doc)
      | some [] => .ok (noEventsRecord accessKey carrierNameFromXml doc)
      | some evs => .ok (mainRecord R accessKey carrierNameFromXml doc evs)

/-- The `catch` block's re-throw filter (lines 192–194). -/
def rethrowMarkers (m : String) : Bool :=
  containsSub m "API SSW" || containsSub m "Falha ao buscar" ||
    containsSub m "Chave de rastreamento não encontrada"

/-- The generic fallback error message of the `catch` block. -/
def genericErrorMsg : String :=
  "Ocorreu um erro inesperado ao buscar as informações de rastreamento. Verifique o console para detalhes."

/-- Model of `fetchTrackingData` from the decoded provider JSON onward (the
HTTP round-trip is the external collaborator; its failure branches are out of
the modelled scope), including the surrounding `catch` block. -/
def fetchTrackingData (R : JsRuntime) (accessKey : String)
    (carrierNameFromXml : Option String) (resp : SswResponse) :
    Except String TrackingInfo :=
  match fetchTrackingBody R accessKey carrierNameFromXml resp with
  | .ok i => .ok i
  | .error m =>
    .error (if m ≠ "" ∧ rethrowMarkers m then m else genericErrorMsg)


/-! ### Concrete documents and payloads used as witnesses / counterexamples -/

/-- A 44-digit key used in concrete examples. -/
def sampleKey : String := "12345678901234567890123456789012345678901234"

/-- An `infNFe` element with the given `Id` attribute and `chNFe` descendant
text and no hint content. -/
def mkInf (idAttr chNFeText : Option String) : InfNFeModel :=
  { idAttr := idAttr, chNFeText := chNFeText, transpXNome := none,
    vol := none, fat := none, dups := [] }

/-- Witness document for C1: a protocol subtree whose `chNFe` holds a valid
key (padded with whitespace that the source trims); the later candidate
locations hold garbage.  Both `infProt` selectors find the element, as in a
real DOM where the specific selector's match also satisfies the general
one. -/
def xmlDocC1 : XmlDoc :=
  { parserError := false
    infProtChProc := some (some (" " ++ sampleKey ++ " "))
    infProtChBare := some (some (" " ++ sampleKey ++ " "))
    infNFe := some (mkInf (some "garbage") (some "also garbage")) }

/-- Witness document for the amended C2: candidates are found in all three
locations but none is valid; the final fallback is present, so the error is
`invalidKey` carrying that final fallback value. -/
def xmlDocC2w : XmlDoc :=
  { parserError := false
    infProtChProc := some (some "ABC")
    infProtChBare := some (some "ABC")
    infNFe := some (mkInf (some "NFEnotakey") (some " zz ")) }

/-- Counterexample document for C2 as stated: the protocol subtree holds a
found-but-invalid candidate (`"ABC"`), no other candidate exists anywhere. -/
def xmlDocC2cex : XmlDoc :=
  { parserError := false
    infProtChProc := some (some "ABC")
    infProtChBare := some (some "ABC")
    infNFe := some (mkInf none none) }

/-- A runtime whose native date parse always fails (every string is an
Invalid Date); the locale formatter is irrelevant for its uses. -/
def constRuntime : JsRuntime :=
  { dateParse := fun _ => none, localeFormat := fun _ => "" }

/-- A runtime modelling the common engines' month-first (US) reading of
`"05/03/2024 14:30:00"` evaluated in a UTC environment: May 3rd 2024,
14:30:00 UTC. -/
def usRuntime : JsRuntime :=
  { dateParse := fun s =>
      if s = "05/03/2024 14:30:00" then some 1714746600000 else none
    localeFormat := fun _ => "" }

/-- A runtime with a fixed parse table for the concrete witness payloads and
a pt-BR `dd/mm/yyyy` formatter evaluated in a UTC environment. -/
def tableRuntime : JsRuntime :=
  { dateParse := fun s =>
      if s = "2024-01-02 10:00" then some 1704189600000
      else if s = "2024-01-03 10:00" then some 1704276000000
      else none
    localeFormat := fun t =>
      let ymd := civilFromDays (t.fdiv 86400000)
      padNum 2 ymd.2.2.toNat ++ "/" ++ padNum 2 ymd.2.1.toNat ++ "/" ++
        toString ymd.1.toNat }

/-- Issuance event of the concrete main payload. -/
def evIssue : SswEvent :=
  { data_hora := some "2024-01-02 10:00"
    ocorrencia := some "DOCUMENTO DE TRANSPORTE EMITIDO"
    cidade := some "SAO PAULO"
    descricao := some "Previsao de entrega: 10/12/25  Peso: 15.50 Kg"
    codigo_ssw := some "80" }

/-- Transit event of the concrete main payload. -/
def evTransit : SswEvent :=
  { data_hora := some "2024-01-03 10:00"
    ocorrencia := some "EM TRANSITO"
    cidade := none
    descricao := none
    codigo_ssw := some "81" }

/-- Concrete main payload: success, header, two events. -/
def respMain : SswResponse :=
  { success := true
    message := none
    documento := some
      { header := some
          { remetente := some "ACME LTDA"
            destinatario := some "FULANO"
            nro_nf := some "123" }
        tracking := some [evIssue, evTransit] } }

/-- Concrete failing payload for the C3 counterexample: success flag false
with a provider message that contains none of the re-throw markers. -/
def respC3cex : SswResponse :=
  { success := false, message := some "X", documento := none }

/-- Concrete payload with a header but an empty events array. -/
def respNoEvents : SswResponse :=
  { success := true
    message := none
    documento := some
      { header := some
          { remetente := some "ACME LTDA"
            destinatario := none
            nro_nf := none }
        tracking := some [] } }

/-- Description for the C6 counterexample: it contains both required
substrings, but an earlier delivery-date match and an earlier weight
match. -/
def descC6cex : String :=
  "Previsao de entrega: 01/01/24 Peso aproximado: 2.00 Kg. Previsao de entrega: 10/12/25 Peso final: 15.50 Kg"

/-- Issuance event of the C6 counterexample. -/
def evC6cex : SswEvent :=
  { data_hora := none, ocorrencia := none, cidade := none,
    descricao := some descC6cex, codigo_ssw := some "80" }

/-- Payload of the C6 counterexample. -/
def respC6cex : SswResponse :=
  { success := true
    message := none
    documento := some { header := none, tracking := some [evC6cex] } }

/-- Event whose raw timestamp the day-first token parser accepts but whose
native parse fails in common engines (day 31 cannot be a month). -/
def evC7 : SswEvent :=
  { data_hora := some "31/12/2024", ocorrencia := none, cidade := none,
    descricao := none, codigo_ssw := none }

/-- Event carrying the spec's LENIENT date example as its raw timestamp. -/
def evC8 : SswEvent :=
  { data_hora := some "05/03/2024 14:30:00", ocorrencia := none, cidade := none,
    descricao := none, codigo_ssw := none }

/-! ### Theorems -/

theorem digit_toUpper (c : Char) (h : c.isDigit = true) : c.toUpper = c := by
  simp only [Char.isDigit, decide_eq_true_eq, Bool.and_eq_true] at h
  obtain ⟨h1, h2⟩ := h
  have h2' : c.val.toNat ≤ 57 := h2
  simp only [Char.toUpper, Char.toNat]
  rw [if_neg (by omega)]

theorem digit_ne_upperN (c : Char) (h : c.isDigit = true) : c ≠ 'N' := by
  intro hn
  subst hn
  simp [Char.isDigit] at h

theorem isValidKey_not_nfe (s : String) (h : upperStartsNFE s = true) :
    isValidKey s = false := by
  cases hv : isValidKey s with
  | false => rfl
  | true =>
    exfalso
    simp only [isValidKey, Bool.and_eq_true, beq_iff_eq] at hv
    obtain ⟨hlen, hall⟩ := hv
    simp only [upperStartsNFE, beq_iff_eq] at h
    cases hcs : s.toList with
    | nil => rw [hcs] at hlen; simp at hlen
    | cons c rest =>
      rw [hcs] at h hall
      simp only [List.map_cons, List.take_succ_cons, List.cons.injEq] at h
      have hcdig : c.isDigit = true := by
        rw [List.all_cons, Bool.and_eq_true] at hall
        exact hall.1
      exact digit_ne_upperN c hcdig (by rw [← digit_toUpper c hcdig]; exact h.1)

theorem isValidKey_sub3_false (s : String) (h : ¬ s.toList.length = 47) :
    isValidKey (substringFrom 3 s) = false := by
  cases hv : isValidKey (substringFrom 3 s) with
  | false => rfl
  | true =>
    exfalso
    simp only [isValidKey, Bool.and_eq_true, beq_iff_eq] at hv
    have hl : (substringFrom 3 s).toList = s.toList.drop 3 := rfl
    rw [hl, List.length_drop] at hv
    omega

theorem protCandidate_spec (q : Option (Option String)) :
    ((textOrNone (q.getD none)).toList).find? isValidKey = protCandidate q := by
  rcases q with _ | t
  · rfl
  · show ((textOrNone t).toList).find? isValidKey = protCandidate (some t)
    rcases htc : textOrNone t with _ | s
    · simp [protCandidate, htc, Option.toList]
    · by_cases hv : isValidKey s = true <;>
        simp [protCandidate, htc, Option.toList, List.find?, hv]

theorem protCandidate_valid (q : Option (Option String)) (k : String)
    (h : protCandidate q = some k) : isValidKey k = true := by
  rcases q with _ | t
  · simp [protCandidate] at h
  · simp only [protCandidate] at h
    rcases htc : textOrNone t with _ | s
    · simp only [htc] at h
      cases h
    · simp only [htc] at h
      by_cases hv : isValidKey s = true
      · rw [if_pos hv, Option.some.injEq] at h
        subst h
        exact hv
      · rw [if_neg hv] at h
        cases h

theorem idCand_spec (idAttr : Option String) :
    (idCandList idAttr).find? isValidKey =
      match idCandidateOf idAttr with
      | some k => if isValidKey k then some k else none
      | none => none := by
  rcases idAttr with _ | s
  · rfl
  · simp only [idCandList, idCandidateOf]
    by_cases hne : s = ""
    · simp [hne]
    · simp only [ne_eq, hne, not_false_eq_true, if_true]
      by_cases hnfe : upperStartsNFE s = true
      · simp only [hnfe, Bool.true_and, if_true]
        by_cases h47 : s.toList.length = 47
        · have hbeq : (s.toList.length == 47) = true := by simpa using h47
          simp only [hbeq, if_true]
          by_cases hv : isValidKey (substringFrom 3 s) = true <;>
            simp [List.find?, hv]
        · have hbeq : (s.toList.length == 47) = false := by simpa using h47
          simp only [hbeq, if_false]
          rw [isValidKey_not_nfe s hnfe]
          simp [List.find?, isValidKey_sub3_false s h47]
      · have hnfe' : upperStartsNFE s = false := by
          cases h : upperStartsNFE s
          · rfl
          · exact absurd h hnfe
        simp only [hnfe', Bool.false_and, if_false]
        by_cases hv : isValidKey s = true <;>
          simp [List.find?, hv]

theorem resolveKey_eq (p1 p2 : Option (Option String)) (idAttr chText : Option String) :
    resolveKey p1 p2 idAttr chText =
      match (candListOf p1 p2 idAttr chText).find? isValidKey with
      | some k => .ok k
      | none =>
        match textOrNone chText with
        | some s => .error (.invalidKey s)
        | none => .error .keyNotFound := by
  unfold resolveKey finalKeyOf afterIdKey candListOf
  rw [List.find?_append, List.find?_append, List.find?_append,
    protCandidate_spec p1, protCandidate_spec p2, idCand_spec idAttr]
  rcases hp1 : protCandidate p1 with _ | k1
  case some =>
    have hv1 := protCandidate_valid p1 k1 hp1
    simp only [hv1, if_true]
    rfl
  case none =>
    rcases hp2 : protCandidate p2 with _ | k2
    case some =>
      have hv2 := protCandidate_valid p2 k2 hp2
      simp only [hv2, if_true]
      rfl
    case none =>
      rcases hid : idCandidateOf idAttr with _ | k3
      case none =>
        rcases hch : textOrNone chText with _ | s
        · rfl
        · by_cases hvs : isValidKey s = true <;>
            simp [List.find?, Option.toList, hvs]
      case some =>
        by_cases hv3 : isValidKey k3 = true
        · simp only [hv3, if_true]
          rfl
        · simp only [hv3, if_false, Bool.false_eq_true]
          rcases hch : textOrNone chText with _ | s
          · rfl
          · by_cases hvs : isValidKey s = true <;>
              simp [List.find?, Option.toList, hvs]

theorem parseXml_ok (d : XmlDoc) (inf : InfNFeModel) (k : String)
    (hpe : d.parserError = false) (hroot : d.infNFe = some inf)
    (hres : resolveKey d.infProtChProc d.infProtChBare inf.idAttr inf.chNFeText = .ok k) :
    ∃ r, parseXmlAndExtractAccessKey d = .ok r ∧ r.accessKey = k := by
  unfold parseXmlAndExtractAccessKey
  rw [hpe]
  simp only [Bool.false_eq_true, if_false, hroot, hres]
  exact ⟨_, rfl, rfl⟩

theorem parseXml_err (d : XmlDoc) (inf : InfNFeModel) (e : XmlError)
    (hpe : d.parserError = false) (hroot : d.infNFe = some inf)
    (hres : resolveKey d.infProtChProc d.infProtChBare inf.idAttr inf.chNFeText = .error e) :
    parseXmlAndExtractAccessKey d = .error e := by
  unfold parseXmlAndExtractAccessKey
  rw [hpe]
  simp only [Bool.false_eq_true, if_false, hroot, hres]

/-- C1: for every XML document that parses and in which the fiscal root
`infNFe` is located, if any of the candidate locations of the ordered
fallback chain (the protocol subtree's `chNFe` field, the `infNFe` `Id`
attribute with the `NFE` marker stripped, the `chNFe` descendant of
`infNFe`) holds a 44-digit numeric string, extraction succeeds and its
`accessKey` is exactly the first such candidate in chain order — each step
being re-validated against the 44-digit-numeric invariant before
acceptance. -/
theorem C1_first_valid_candidate_wins (d : XmlDoc) (inf : InfNFeModel) (k : String)
    (hpe : d.parserError = false) (hroot : d.infNFe = some inf)
    (hfind : (candidateList d inf).find? isValidKey = some k) :
    ∃ r, parseXmlAndExtractAccessKey d = .ok r ∧ r.accessKey = k := by
  apply parseXml_ok d inf k hpe hroot
  rw [resolveKey_eq d.infProtChProc d.infProtChBare inf.idAttr inf.chNFeText]
  rw [show candListOf d.infProtChProc d.infProtChBare inf.idAttr inf.chNFeText =
        candidateList d inf from rfl, hfind]

/-- Witness for C1 at a concrete document: the protocol `chNFe` holds a
valid key surrounded by whitespace, the later candidates are garbage, and
extraction returns exactly the trimmed key. -/
theorem C1_witness :
    (candidateList xmlDocC1 (mkInf (some "garbage") (some "also garbage"))).find?
        isValidKey = some sampleKey ∧
    ∃ r, parseXmlAndExtractAccessKey xmlDocC1 = .ok r ∧ r.accessKey = sampleKey := by
  refine ⟨by decide, ?_⟩
  exact C1_first_valid_candidate_wins xmlDocC1
    (mkInf (some "garbage") (some "also garbage")) sampleKey rfl rfl (by decide)

/-- C2 (amended): with a located fiscal root, when no candidate in the chain
is a 44-digit numeric string, extraction fails with `invalidKey s` exactly
when the final fallback — the trimmed `chNFe` descendant text of `infNFe` —
is present with value `s`, and with `keyNotFound` when that final fallback
is absent, regardless of invalid candidate values found in the earlier
locations (the source discards those instead of reporting them). -/
theorem C2_amended_error_selection (d : XmlDoc) (inf : InfNFeModel)
    (hpe : d.parserError = false) (hroot : d.infNFe = some inf)
    (hnone : (candidateList d inf).find? isValidKey = none) :
    parseXmlAndExtractAccessKey d =
      .error (match textOrNone inf.chNFeText with
              | some s => .invalidKey s
              | none => .keyNotFound) := by
  apply parseXml_err d inf _ hpe hroot
  rw [resolveKey_eq d.infProtChProc d.infProtChBare inf.idAttr inf.chNFeText]
  rw [show candListOf d.infProtChProc d.infProtChBare inf.idAttr inf.chNFeText =
        candidateList d inf from rfl, hnone]
  rcases textOrNone inf.chNFeText with _ | s <;> rfl

/-- Witness for the amended C2: invalid candidates in all three locations,
with the final fallback present (`" zz "`, trimmed to `"zz"`): the error is
`invalidKey "zz"`. -/
theorem C2_amended_witness :
    parseXmlAndExtractAccessKey xmlDocC2w = .error (.invalidKey "zz") := by
  have h := C2_amended_error_selection xmlDocC2w
    (mkInf (some "NFEnotakey") (some " zz ")) rfl rfl (by decide)
  exact h.trans (by decide)

/-- Counterexample to C2 as stated: in `xmlDocC2cex` the fiscal root is
located and the protocol subtree's `chNFe` holds the found candidate
`"ABC"`; every found candidate is invalid, yet the source fails with the
`keyNotFound`-class error rather than the `invalidKey`-class error carrying
the found value that the claim requires. -/
theorem C2_counterexample :
    textOrNone (xmlDocC2cex.infProtChProc.getD none) = some "ABC" ∧
    isValidKey "ABC" = false ∧
    parseXmlAndExtractAccessKey xmlDocC2cex = .error .keyNotFound ∧
    ∀ s, parseXmlAndExtractAccessKey xmlDocC2cex ≠ .error (.invalidKey s) := by
  refine ⟨by decide, by decide, by decide, ?_⟩
  intro s h
  rw [show parseXmlAndExtractAccessKey xmlDocC2cex = .error .keyNotFound from by decide] at h
  cases h

/-- C10: an installment is kept only when its extracted number is a nonempty
string, its due date is a nonempty string, or its value parses to a nonzero
number; an installment whose only content parses to exactly `0` is dropped;
and when every element is dropped the installments field is `none`
(undefined), never an empty list. -/
theorem C10_installments (dups : List DupModel) :
    (∀ l, processInstallments dups = some l →
      l ≠ [] ∧
      ∀ i ∈ l, (∃ s, i.number = some s ∧ s ≠ "") ∨
        (∃ s, i.dueDate = some s ∧ s ≠ "") ∨
        (∃ v, i.value = some v ∧ v ≠ 0)) ∧
    ((dups.map mapDup).filter keepDup = [] → processInstallments dups = none) ∧
    (∀ t, jsParseFloat t = some 0 →
      processInstallments [({ nDup := none, dVenc := none, vDup := some t } : DupModel)] = none) := by
  refine ⟨?_, ?_, ?_⟩
  · intro l hl
    rcases dups with _ | ⟨d0, drest⟩
    · simp [processInstallments] at hl
    · simp only [processInstallments] at hl
      split at hl
      · exact absurd hl (by simp)
      · rename_i hne
        cases hl
        constructor
        · simpa [List.isEmpty_iff] using hne
        · intro i hi
          have hk : keepDup i = true := List.of_mem_filter hi
          simp only [keepDup, Bool.or_eq_true] at hk
          rcases hk with (h | h) | h
          · left
            rcases hn : i.number with _ | s
            · rw [hn] at h; simp [truthyOptStr] at h
            · rw [hn] at h
              simp only [truthyOptStr, ne_eq, decide_eq_true_eq] at h
              exact ⟨s, rfl, h⟩
          · right; left
            rcases hn : i.dueDate with _ | s
            · rw [hn] at h; simp [truthyOptStr] at h
            · rw [hn] at h
              simp only [truthyOptStr, ne_eq, decide_eq_true_eq] at h
              exact ⟨s, rfl, h⟩
          · right; right
            rcases hn : i.value with _ | v
            · rw [hn] at h; simp [truthyOptNum] at h
            · rw [hn] at h
              simp only [truthyOptNum, ne_eq, decide_eq_true_eq] at h
              exact ⟨v, rfl, h⟩
  · intro hemp
    rcases dups with _ | ⟨d0, drest⟩
    · rfl
    · simp only [processInstallments]
      rw [hemp]
      rfl
  · intro t ht
    have hk : keepDup (mapDup { nDup := none, dVenc := none, vDup := some t }) = false := by
      simp only [mapDup, keepDup, getTextContent, textOrNone, getNumericContent]
      by_cases he : t = ""
      · subst he
        simp [truthyOptStr, truthyOptNum, jsParseFloat, natOfDigits]
      · simp only [ne_eq, he, not_false_eq_true, if_true, ht]
        simp [truthyOptStr, truthyOptNum]
    simp only [processInstallments, List.map_cons, List.map_nil]
    rw [List.filter_cons_of_neg (by simp [hk]), List.filter_nil]
    rfl

/-- Witness for C10: a single installment whose only present field is the
value text `"0.00"`, which parses to exactly `0`, yields no installments
field at all. -/
theorem C10_witness :
    processInstallments [({ nDup := none, dVenc := none, vDup := some "0.00" } : DupModel)] = none := by
  exact (C10_installments []).2.2 "0.00" (by decide)

theorem insDescBy_perm {α : Type} (f : α → Int) (x : α) (l : List α) :
    (insDescBy f x l).Perm (x :: l) := by
  induction l with
  | nil => rfl
  | cons y ys ih =>
    simp only [insDescBy]
    split
    · exact (ih.cons y).trans (List.Perm.swap x y ys)
    · rfl

theorem sortDescBy_perm {α : Type} (f : α → Int) (l : List α) :
    (sortDescBy f l).Perm l := by
  induction l with
  | nil => rfl
  | cons x xs ih => exact (insDescBy_perm f x _).trans (ih.cons x)

theorem insDescBy_pairwise {α : Type} (f : α → Int) (x : α) (l : List α)
    (h : l.Pairwise (fun a b => f a ≥ f b)) :
    (insDescBy f x l).Pairwise (fun a b => f a ≥ f b) := by
  induction l with
  | nil => simp [insDescBy]
  | cons y ys ih =>
    rcases List.pairwise_cons.mp h with ⟨hy, hys⟩
    simp only [insDescBy]
    split
    · rename_i hgt
      refine List.pairwise_cons.mpr ⟨?_, ih hys⟩
      intro z hz
      rcases List.mem_cons.mp (((insDescBy_perm f x ys).mem_iff).mp hz) with hzx | hzy
      · subst hzx
        omega
      · exact hy z hzy
    · rename_i hle
      refine List.pairwise_cons.mpr ⟨?_, List.pairwise_cons.mpr ⟨hy, hys⟩⟩
      intro z hz
      rcases List.mem_cons.mp hz with hzy | hzys
      · subst hzy
        omega
      · exact le_trans (hy z hzys) (by omega)

theorem sortDescBy_pairwise {α : Type} (f : α → Int) (l : List α) :
    (sortDescBy f l).Pairwise (fun a b => f a ≥ f b) := by
  induction l with
  | nil => exact List.Pairwise.nil
  | cons x xs ih => exact insDescBy_pairwise f x _ ih

theorem sortDescBy_pairwise_strict {α : Type} (f : α → Int) (l : List α)
    (hd : l.Pairwise (fun a b => f a ≠ f b)) :
    (sortDescBy f l).Pairwise (fun a b => f a > f b) := by
  have hd' : (sortDescBy f l).Pairwise (fun a b => f a ≠ f b) :=
    ((sortDescBy_perm f l).pairwise_iff (fun hab he => hab he.symm)).mpr hd
  have := (sortDescBy_pairwise f l).and hd'
  exact this.imp (fun hab => by omega)

theorem insDescBy_filter_key {α : Type} (f : α → Int) (x : α) (l : List α) (t : Int) :
    (insDescBy f x l).filter (fun a => f a == t) =
      (x :: l).filter (fun a => f a == t) := by
  induction l with
  | nil => rfl
  | cons y ys ih =>
    simp only [insDescBy]
    split
    · rename_i hgt
      by_cases hx : f x = t
      · have hy : (f y == t) = false := by
          simp only [beq_eq_false_iff_ne, ne_eq]
          omega
        simp only [List.filter_cons, hy, Bool.false_eq_true, if_false, ih]
      · have hx' : (f x == t) = false := by simpa using hx
        simp only [List.filter_cons, hx', Bool.false_eq_true, if_false, ih]
    · rfl

theorem sortDescBy_filter_key {α : Type} (f : α → Int) (l : List α) (t : Int) :
    (sortDescBy f l).filter (fun a => f a == t) = l.filter (fun a => f a == t) := by
  induction l with
  | nil => rfl
  | cons x xs ih =>
    simp only [sortDescBy]
    rw [insDescBy_filter_key, List.filter_cons, List.filter_cons, ih]

theorem fetchTrackingData_main (R : JsRuntime) (key : String) (cn : Option String)
    (resp : SswResponse) (doc : SswDocumento) (e0 : SswEvent) (erest : List SswEvent)
    (hs : resp.success = true) (hdoc : resp.documento = some doc)
    (htr : doc.tracking = some (e0 :: erest)) :
    fetchTrackingData R key cn resp = .ok (mainRecord R key cn doc (e0 :: erest)) := by
  unfold fetchTrackingData fetchTrackingBody
  simp only [hs, hdoc, htr, not_true_eq_false, Bool.false_eq_true, if_false]

theorem fetchTrackingData_noEvents (R : JsRuntime) (key : String) (cn : Option String)
    (resp : SswResponse) (doc : SswDocumento)
    (hs : resp.success = true) (hdoc : resp.documento = some doc)
    (htr : doc.tracking = none ∨ doc.tracking = some []) :
    fetchTrackingData R key cn resp = .ok (noEventsRecord key cn doc) := by
  unfold fetchTrackingData fetchTrackingBody
  rcases htr with h | h <;>
    simp only [hs, hdoc, h, not_true_eq_false, Bool.false_eq_true, if_false]

theorem fetchTrackingData_noDoc (R : JsRuntime) (key : String) (cn : Option String)
    (resp : SswResponse)
    (hs : resp.success = true) (hdoc : resp.documento = none) :
    fetchTrackingData R key cn resp = .ok (noDocumentoRecord key cn) := by
  unfold fetchTrackingData fetchTrackingBody
  simp only [hs, hdoc, not_true_eq_false, Bool.false_eq_true, if_false]

theorem orTruthy_ne_empty (x : Option String) (d : String) (hd : d ≠ "") :
    orTruthy x d ≠ "" := by
  rcases x with _ | s
  · exact hd
  · simp only [orTruthy]
    by_cases hs : s = ""
    · simp [hs, hd]
    · simp [hs]

/-- C3 (amended): over well-formed payloads, normalization fails exactly when
the top-level success flag is falsy; the thrown message is the provider's
message (or the generic key-not-found default when the message is absent or
empty) only when that message contains one of the `catch` block's re-throw
markers — otherwise the `catch` block replaces it with the fixed generic
unexpected-error message; with no provider message the failure carries the
generic key-not-found message (which contains a marker, so it survives);
every other missing field degrades to a default without failing. -/
theorem C3_amended_failure_semantics (R : JsRuntime) (key : String)
    (cn : Option String) (resp : SswResponse) :
    (resp.success = true → ∃ info, fetchTrackingData R key cn resp = .ok info) ∧
    (resp.success = false →
      fetchTrackingData R key cn resp =
        .error (if rethrowMarkers (orTruthy resp.message sswNotFoundMsg) = true
                then orTruthy resp.message sswNotFoundMsg
                else genericErrorMsg)) ∧
    (resp.success = false → resp.message = none →
      fetchTrackingData R key cn resp = .error sswNotFoundMsg) := by
  refine ⟨?_, ?_, ?_⟩
  · intro hs
    rcases hdoc : resp.documento with _ | doc
    · exact ⟨_, fetchTrackingData_noDoc R key cn resp hs hdoc⟩
    · rcases htr : doc.tracking with _ | evs
      · exact ⟨_, fetchTrackingData_noEvents R key cn resp doc hs hdoc (Or.inl htr)⟩
      · rcases evs with _ | ⟨e0, erest⟩
        · exact ⟨_, fetchTrackingData_noEvents R key cn resp doc hs hdoc (Or.inr htr)⟩
        · exact ⟨_, fetchTrackingData_main R key cn resp doc e0 erest hs hdoc htr⟩
  · intro hs
    have hne : orTruthy resp.message sswNotFoundMsg ≠ "" :=
      orTruthy_ne_empty resp.message sswNotFoundMsg (by decide)
    unfold fetchTrackingData fetchTrackingBody
    simp only [hs, Bool.false_eq_true, not_false_eq_true, if_true]
    by_cases hr : rethrowMarkers (orTruthy resp.message sswNotFoundMsg) = true
    · simp [hne, hr]
    · simp [hne, hr]
  · intro hs hm
    unfold fetchTrackingData fetchTrackingBody
    simp only [hs, hm, Bool.false_eq_true, not_false_eq_true, if_true]
    have h1 : orTruthy none sswNotFoundMsg = sswNotFoundMsg := rfl
    rw [h1]
    have h2 : (sswNotFoundMsg ≠ "" ∧ rethrowMarkers sswNotFoundMsg = true) := by
      refine ⟨by decide, by decide⟩
    rw [if_pos h2]

/-- Witness for the amended C3: a successful payload normalizes (the main
concrete payload), and a failing payload with no provider message fails with
the generic key-not-found message. -/
theorem C3_amended_witness :
    (∃ info, fetchTrackingData tableRuntime "K" none respMain = .ok info) ∧
    fetchTrackingData constRuntime "K" none
        { success := false, message := none, documento := none } =
      .error sswNotFoundMsg := by
  refine ⟨(C3_amended_failure_semantics tableRuntime "K" none respMain).1 rfl, ?_⟩
  exact (C3_amended_failure_semantics constRuntime "K" none
    { success := false, message := none, documento := none }).2.2 rfl rfl

/-- Counterexample to C3 as stated: the provider reports failure with its own
message `"X"`; the claim requires the error to carry `"X"`, but the `catch`
block replaces it with the fixed generic unexpected-error message because
`"X"` contains no re-throw marker. -/
theorem C3_counterexample :
    respC3cex.success = false ∧
    respC3cex.message = some "X" ∧
    fetchTrackingData constRuntime "K" none respC3cex = .error genericErrorMsg ∧
    genericErrorMsg ≠ "X" := by
  refine ⟨rfl, rfl, ?_, by decide⟩
  decide

/-- C4: for every successful normalization reaching the event path, the
returned events are the stable descending sort of the mapped events by
their time value: adjacent keys are non-increasing; events sharing a time
value keep the provider's original order (the per-key sublists are
unchanged); if the mapped time values are pairwise distinct the order is
strictly descending; and every returned timestamp is the ISO rendering of
its event's time value (the degraded paths return the trivially sorted empty
sequence). -/
theorem C4_events_sorted_stable (R : JsRuntime) (key : String) (cn : Option String)
    (resp : SswResponse) (doc : SswDocumento) (e0 : SswEvent) (erest : List SswEvent)
    (hs : resp.success = true) (hdoc : resp.documento = some doc)
    (htr : doc.tracking = some (e0 :: erest)) :
    ∃ info, fetchTrackingData R key cn resp = .ok info ∧
      info.events = (sortDescBy Prod.fst ((e0 :: erest).map (keyedEvent R))).map Prod.snd ∧
      (sortDescBy Prod.fst ((e0 :: erest).map (keyedEvent R))).Pairwise
        (fun a b => a.1 ≥ b.1) ∧
      (∀ t : Int,
        (sortDescBy Prod.fst ((e0 :: erest).map (keyedEvent R))).filter
            (fun p => p.1 == t) =
          ((e0 :: erest).map (keyedEvent R)).filter (fun p => p.1 == t)) ∧
      (((e0 :: erest).map (keyedEvent R)).Pairwise (fun a b => a.1 ≠ b.1) →
        (sortDescBy Prod.fst ((e0 :: erest).map (keyedEvent R))).Pairwise
          (fun a b => a.1 > b.1)) ∧
      (∀ p ∈ sortDescBy Prod.fst ((e0 :: erest).map (keyedEvent R)),
        p.2.timestamp = jsToISO p.1) := by
  refine ⟨mainRecord R key cn doc (e0 :: erest),
    fetchTrackingData_main R key cn resp doc e0 erest hs hdoc htr, rfl,
    sortDescBy_pairwise _ _,
    (fun t => sortDescBy_filter_key _ _ t),
    (fun hd => sortDescBy_pairwise_strict _ _ hd), ?_⟩
  intro p hp
  have hmem : p ∈ (e0 :: erest).map (keyedEvent R) := (sortDescBy_perm _ _).subset hp
  obtain ⟨e, _, rfl⟩ := List.mem_map.mp hmem
  rfl

/-- Witness for C4: the concrete main payload, whose two events arrive in
ascending time order and come back most-recent-first. -/
theorem C4_witness :
    ∃ info, fetchTrackingData tableRuntime "K" none respMain = .ok info ∧
      info.events =
        (sortDescBy Prod.fst ([evIssue, evTransit].map (keyedEvent tableRuntime))).map
          Prod.snd ∧
      (sortDescBy Prod.fst ([evIssue, evTransit].map (keyedEvent tableRuntime))).Pairwise
        (fun a b => a.1 ≥ b.1) ∧
      (∀ t : Int,
        (sortDescBy Prod.fst ([evIssue, evTransit].map (keyedEvent tableRuntime))).filter
            (fun p => p.1 == t) =
          ([evIssue, evTransit].map (keyedEvent tableRuntime)).filter
            (fun p => p.1 == t)) ∧
      (([evIssue, evTransit].map (keyedEvent tableRuntime)).Pairwise
          (fun a b => a.1 ≠ b.1) →
        (sortDescBy Prod.fst ([evIssue, evTransit].map (keyedEvent tableRuntime))).Pairwise
          (fun a b => a.1 > b.1)) ∧
      (∀ p ∈ sortDescBy Prod.fst ([evIssue, evTransit].map (keyedEvent tableRuntime)),
        p.2.timestamp = jsToISO p.1) :=
  C4_events_sorted_stable tableRuntime "K" none respMain
    (respMain.documento.getD { header := none, tracking := none }) evIssue [evTransit]
    rfl rfl rfl

/-- C5: for every payload whose success flag is truthy, whose `documento` is
present, and whose events collection is absent (or not an array) or empty,
normalization returns — never throws — the degraded record: the documented
no-events sentinel as `currentStatus`, empty `events`, and each
header-derived field independently filled from the partial header or its
default sentinel. -/
theorem C5_zero_events_record (R : JsRuntime) (key : String) (cn : Option String)
    (resp : SswResponse) (doc : SswDocumento)
    (hs : resp.success = true) (hdoc : resp.documento = some doc)
    (htr : doc.tracking = none ∨ doc.tracking = some []) :
    fetchTrackingData R key cn resp =
      .ok { id := key
            carrier := orTruthy cn "SSW Transportes"
            estimatedDelivery := "Não disponível"
            currentStatus := "Nenhum evento de rastreamento encontrado."
            events := []
            origin := orTruthy (headerOf doc).remetente "Origem não informada"
            destination := orTruthy (headerOf doc).destinatario "Destino não informado"
            productName := some (productNameOf (headerOf doc) key)
            weight := none } :=
  fetchTrackingData_noEvents R key cn resp doc hs hdoc htr

/-- Witness for C5: concrete payload with a header and an empty events
array; the record carries the no-events sentinel, the header's sender, and
the defaulted destination. -/
theorem C5_witness :
    fetchTrackingData constRuntime "KEY1" none respNoEvents =
      .ok { id := "KEY1"
            carrier := "SSW Transportes"
            estimatedDelivery := "Não disponível"
            currentStatus := "Nenhum evento de rastreamento encontrado."
            events := []
            origin := "ACME LTDA"
            destination := "Destino não informado"
            productName := some "DANFE: KEY1"
            weight := none } := by
  have h := C5_zero_events_record constRuntime "KEY1" none respNoEvents
    (respNoEvents.documento.getD { header := none, tracking := none }) rfl rfl
    (Or.inr rfl)
  exact h.trans (by decide)

theorem deliveryAndWeight_eq (R : JsRuntime) (evs : List SswEvent) (ev : SswEvent)
    (d : String) (hfind : findInitialEvent evs = some ev)
    (hdesc : ev.descricao = some d) (hdne : d ≠ "") :
    deliveryAndWeight R evs =
      ((match deliveryCapture d with
        | some ds =>
          match parseSswMillis (some ds) with
          | some t => R.localeFormat t
          | none => "Não disponível"
        | none => "Não disponível"),
       (weightCapture d).map (fun c => toFixed2 c ++ " kg")) := by
  unfold deliveryAndWeight
  simp only [hfind, hdesc, ne_eq, hdne, not_false_eq_true, if_true]

/-- C6 (amended): with a located issuance event (matched by code `"80"` or
the case-insensitive issuance phrase) carrying a nonempty description, the
delivery estimate comes from the description's FIRST delivery-date match and
the weight from its FIRST weight match: when those first matches are
`"10/12/25"` and `"15.50"`, the record shows the 2025-12-10 UTC instant
formatted for display and `"15.50 kg"`; when either pattern finds no match
the corresponding field stays at its default sentinel and normalization
still succeeds. -/
theorem C6_amended_first_match_extraction (R : JsRuntime) (key : String)
    (cn : Option String) (resp : SswResponse) (doc : SswDocumento)
    (e0 : SswEvent) (erest : List SswEvent) (ev : SswEvent) (d : String)
    (hs : resp.success = true) (hdoc : resp.documento = some doc)
    (htr : doc.tracking = some (e0 :: erest))
    (hfind : findInitialEvent (e0 :: erest) = some ev)
    (hdesc : ev.descricao = some d) (hdne : d ≠ "") :
    ∃ info, fetchTrackingData R key cn resp = .ok info ∧
      (deliveryCapture d = some "10/12/25" →
        parseSswMillis (some "10/12/25") = some 1765324800000 ∧
        info.estimatedDelivery = R.localeFormat 1765324800000) ∧
      (weightCapture d = some "15.50" → info.weight = some "15.50 kg") ∧
      (deliveryCapture d = none → info.estimatedDelivery = "Não disponível") ∧
      (weightCapture d = none → info.weight = none) := by
  have hdw := deliveryAndWeight_eq R (e0 :: erest) ev d hfind hdesc hdne
  have hest : (mainRecord R key cn doc (e0 :: erest)).estimatedDelivery =
      (deliveryAndWeight R (e0 :: erest)).1 := rfl
  have hw : (mainRecord R key cn doc (e0 :: erest)).weight =
      (deliveryAndWeight R (e0 :: erest)).2 := rfl
  refine ⟨mainRecord R key cn doc (e0 :: erest),
    fetchTrackingData_main R key cn resp doc e0 erest hs hdoc htr, ?_, ?_, ?_, ?_⟩
  · intro hcap
    refine ⟨by decide, ?_⟩
    rw [hest, hdw]
    simp only [hcap]
    rw [show parseSswMillis (some "10/12/25") = some 1765324800000 from by decide]
  · intro hcap
    rw [hw, hdw]
    simp only [hcap, Option.map_some']
    rw [show toFixed2 "15.50" ++ " kg" = "15.50 kg" from by decide]
  · intro hcap
    rw [hest, hdw]
    simp only [hcap]
  · intro hcap
    rw [hw, hdw]
    simp only [hcap, Option.map_none']

/-- Witness for the amended C6: the concrete main payload's issuance event
carries `"Previsao de entrega: 10/12/25  Peso: 15.50 Kg"`; the record shows
`10/12/2025` (the pt-BR rendering of the 2025-12-10 UTC instant) and
`"15.50 kg"`. -/
theorem C6_amended_witness :
    ∃ info, fetchTrackingData tableRuntime "K" none respMain = .ok info ∧
      info.estimatedDelivery = tableRuntime.localeFormat 1765324800000 ∧
      info.weight = some "15.50 kg" := by
  obtain ⟨info, h1, h2, h3, _, _⟩ :=
    C6_amended_first_match_extraction tableRuntime "K" none respMain
      (respMain.documento.getD { header := none, tracking := none })
      evIssue [evTransit] evIssue "Previsao de entrega: 10/12/25  Peso: 15.50 Kg"
      rfl rfl rfl (by decide) rfl (by decide)
  exact ⟨info, h1, (h2 (by decide)).2, h3 (by decide)⟩

/-- Counterexample to C6 as stated: the description contains both
`"Previsao de entrega: 10/12/25"` and `"15.50 Kg"`, but earlier matches of
the same patterns win: the extracted delivery estimate is the 2024-01-01
rendering and the weight is `"2.00 kg"`, not the values the claim requires. -/
theorem C6_counterexample :
    containsSub descC6cex "Previsao de entrega: 10/12/25" = true ∧
    containsSub descC6cex "15.50 Kg" = true ∧
    (fetchTrackingData tableRuntime "K" none respC6cex).map
        (fun i => (i.estimatedDelivery, i.weight)) =
      .ok ("01/01/2024", some "2.00 kg") ∧
    ("01/01/2024" : String) ≠ "10/12/2025" ∧
    (some "2.00 kg" : Option String) ≠ some "15.50 kg" := by
  refine ⟨by decide, by decide, ?_, by decide, by decide⟩
  decide

/-- C7 (amended): under the LENIENT event-timestamp path, the mapped
timestamp derives from the native absolute-timestamp parse of the raw value
when that succeeds, and otherwise is the epoch placeholder directly — the
source has no token-parser fallback — so every mapped event carries the ISO
rendering of some time value, never null. -/
theorem C7_amended_native_or_epoch (R : JsRuntime) (e : SswEvent) :
    ((keyedEvent R e).2.timestamp = jsToISO (eventMillis R e)) ∧
    (∀ s t, e.data_hora = some s → s ≠ "" → R.dateParse s = some t →
      eventMillis R e = t) ∧
    (∀ s, e.data_hora = some s → s ≠ "" → R.dateParse s = none →
      eventMillis R e = 0) ∧
    (e.data_hora = none ∨ e.data_hora = some "" → eventMillis R e = 0) := by
  refine ⟨rfl, ?_, ?_, ?_⟩
  · intro s t hdh hne hp
    unfold eventMillis
    simp only [hdh, ne_eq, hne, not_false_eq_true, if_true, hp]
  · intro s hdh hne hp
    unfold eventMillis
    simp only [hdh, ne_eq, hne, not_false_eq_true, if_true, hp]
  · intro hdh
    unfold eventMillis
    rcases hdh with h | h <;> simp [h]

/-- Witness for the amended C7: an event whose raw timestamp no native parse
accepts gets the epoch time value (and hence the epoch ISO timestamp). -/
theorem C7_amended_witness :
    eventMillis constRuntime evC7 = 0 ∧
    (keyedEvent constRuntime evC7).2.timestamp = jsToISO 0 :=
  ⟨(C7_amended_native_or_epoch constRuntime evC7).2.2.1 "31/12/2024" rfl
      (by decide) rfl,
    (C7_amended_native_or_epoch constRuntime evC7).1⟩

/-- Counterexample to C7 as stated: for the raw value `"31/12/2024"` the
day/month/year token parser succeeds (2024-12-31), so under the claimed
fallback chain the mapped timestamp would be 2024-12-31; but when the native
parse fails the source uses the epoch placeholder directly — the token
parser is never consulted in the event path. -/
theorem C7_counterexample :
    parseSswDateForDelivery (some "31/12/2024") = some "2024-12-31T00:00:00.000Z" ∧
    (keyedEvent constRuntime evC7).2.timestamp = "1970-01-01T00:00:00.000Z" ∧
    ("1970-01-01T00:00:00.000Z" : String) ≠ "2024-12-31T00:00:00.000Z" := by
  refine ⟨by decide, ?_, by decide⟩
  decide

theorem sswComponents_year_range (s : String) (y m d : Int)
    (h : sswComponents (some s) = some (y, m, d)) : 2000 ≤ y ∧ y ≤ 2100 := by
  unfold sswComponents at h
  split at h
  · cases h
  · dsimp only at h
    split at h
    · cases h
    · split at h
      · cases h
      · split at h
        · split at h
          · split at h
            · cases h
            · rename_i hrange
              rw [Option.some.injEq, Prod.mk.injEq] at h
              obtain ⟨h1, -⟩ := h
              subst h1
              constructor <;> omega
          · split at h
            · cases h
            · rename_i hrange
              rw [Option.some.injEq, Prod.mk.injEq] at h
              obtain ⟨h1, -⟩ := h
              subst h1
              constructor <;> omega
        · cases h

theorem sswTokenCount_none (s : String)
    (hlen : (sswDateTokens s).length ≠ 3) :
    parseSswDateForDelivery (some s) = none := by
  unfold parseSswDateForDelivery parseSswMillis sswComponents
  by_cases htrim : jsTrim s = ""
  · simp [htrim]
  · simp [htrim, hlen]

theorem sswNaN_none (s : String)
    (hnan : jsParseInt ((sswDateTokens s).headD "") = none ∨
      jsParseInt ((sswDateTokens s)[1]?.getD "") = none ∨
      jsParseInt ((sswDateTokens s)[2]?.getD "") = none) :
    parseSswDateForDelivery (some s) = none := by
  unfold parseSswDateForDelivery parseSswMillis sswComponents
  by_cases htrim : jsTrim s = ""
  · simp [htrim]
  · by_cases hlen : (sswDateTokens s).length ≠ 3
    · simp [htrim, hlen]
    · simp only [htrim, if_neg (by simpa using htrim), hlen, if_neg hlen]
      rcases h1 : jsParseInt ((sswDateTokens s).headD "") with _ | v1 <;>
        rcases h2 : jsParseInt ((sswDateTokens s)[1]?.getD "") with _ | v2 <;>
          rcases h3 : jsParseInt ((sswDateTokens s)[2]?.getD "") with _ | v3 <;>
            simp_all

/-- C8 (amended): the STRICT parser maps `"05/03/24"` to the 2024-03-05 UTC
midnight instant (two-digit years go to the 2000s), `"not-a-date"` to null,
and returns null — never raising — on any malformed component: wrong token
count, non-numeric component, or an adjusted year outside `[2000, 2100]`
(every accepted year is in range).  The LENIENT event path has no day-first
token fallback: applied to `"05/03/2024 14:30:00"` it yields the native
parse's result — the month-first reading 2024-05-03T14:30:00Z under the
modelled engine — while the token parser itself would yield the 2024-03-05
UTC *midnight* instant, ignoring the time of day. -/
theorem C8_amended_date_examples :
    parseSswDateForDelivery (some "05/03/24") = some "2024-03-05T00:00:00.000Z" ∧
    parseSswDateForDelivery (some "not-a-date") = none ∧
    (∀ s, (sswDateTokens s).length ≠ 3 → parseSswDateForDelivery (some s) = none) ∧
    (∀ s, (jsParseInt ((sswDateTokens s).headD "") = none ∨
        jsParseInt ((sswDateTokens s)[1]?.getD "") = none ∨
        jsParseInt ((sswDateTokens s)[2]?.getD "") = none) →
      parseSswDateForDelivery (some s) = none) ∧
    (∀ s y m d, sswComponents (some s) = some (y, m, d) → 2000 ≤ y ∧ y ≤ 2100) ∧
    (keyedEvent usRuntime evC8).2.timestamp = "2024-05-03T14:30:00.000Z" ∧
    parseSswDateForDelivery (some "05/03/2024 14:30:00") =
      some "2024-03-05T00:00:00.000Z" := by
  refine ⟨by decide, by decide, sswTokenCount_none, sswNaN_none,
    sswComponents_year_range, ?_, by decide⟩
  decide

/-- Witness for the amended C8: the malformed-component clauses applied at
concrete inputs — a two-token date, a non-numeric day, and an out-of-range
year all map to null. -/
theorem C8_amended_witness :
    parseSswDateForDelivery (some "05/03") = none ∧
    parseSswDateForDelivery (some "aa/03/24") = none ∧
    parseSswDateForDelivery (some "05/03/1999") = none :=
  ⟨C8_amended_date_examples.2.2.1 "05/03" (by decide),
   C8_amended_date_examples.2.2.2.1 "aa/03/24" (Or.inl (by decide)),
   by decide⟩

/-- Counterexample to C8 as stated: the claim expects
`normalize("05/03/2024 14:30:00", LENIENT)` to be the day-first instant
2024-03-05T14:30:00.  Under the modelled month-first engine the event path
yields 2024-05-03T14:30:00Z, and the day-first token parser applied to the
same input yields the 2024-03-05 *midnight* instant (it ignores the time
token) — neither code path produces the claimed value. -/
theorem C8_counterexample :
    (keyedEvent usRuntime evC8).2.timestamp = "2024-05-03T14:30:00.000Z" ∧
    (keyedEvent usRuntime evC8).2.timestamp ≠ "2024-03-05T14:30:00.000Z" ∧
    parseSswDateForDelivery (some "05/03/2024 14:30:00") =
      some "2024-03-05T00:00:00.000Z" ∧
    parseSswDateForDelivery (some "05/03/2024 14:30:00") ≠
      some "2024-03-05T14:30:00.000Z" := by
  refine ⟨?_, ?_, by decide, by decide⟩ <;> decide

/-- C9 (amended): for every input — null, undefined, empty, or any string —
`parseSswDateForDelivery` terminates with either null or the ISO rendering
of an in-range time value (|t| ≤ 8.64e15 ms); the `catch` around
`toISOString` is, however, reachable: component magnitudes that push the
time value past the representable range make `Date.UTC` produce `NaN`, and
the resulting `RangeError` is swallowed into a null return. -/
theorem C9_amended_total_iso_or_null (s : Option String) :
    parseSswDateForDelivery s = none ∨
    ∃ t : Int, t.natAbs ≤ 8640000000000000 ∧
      parseSswDateForDelivery s = some (jsToISO t) := by
  unfold parseSswDateForDelivery parseSswMillis
  rcases hc : sswComponents s with _ | ⟨y, m, d⟩
  · left
    rfl
  · unfold jsDateUTC
    dsimp only
    split
    all_goals
      split
      · rename_i hle
        right
        exact ⟨_, hle, rfl⟩
      · left
        rfl

/-- Counterexample to C9's unreachability clause: for
`"100000000000/1/2024"` every validation passes (day `10^11`, month `0`,
year `2024` in range), yet `Date.UTC` clips the out-of-range time value to
`NaN` — so `toISOString` throws and the `catch` branch the claim calls
unreachable is the one that produces the null result. -/
theorem C9_counterexample :
    sswComponents (some "100000000000/1/2024") = some (2024, 0, 100000000000) ∧
    jsDateUTC 2024 0 100000000000 = none ∧
    parseSswDateForDelivery (some "100000000000/1/2024") = none := by
  refine ⟨by decide, by decide, by decide⟩
